import Mathlib

/-!
Verification of the SensePOLAR core: the ALBERT word-embedding aggregation
(`sensepolar/embed/albertEmbed.py`) and the multi-backend lexical oracle
(`sensepolar/oracle/dictionaryapi.py`), shallowly embedded in Lean.
-/

/-- A Python-like value: the JSON bodies handled by the oracle together with
`None`, as manipulated by the source's parsing code. -/
inductive Py where
  | none
  | bool (b : Bool)
  | int (n : Int)
  | str (s : String)
  | list (l : List Py)
  | dict (l : List (String × Py))

mutual

/-- Decidable equality on `Py` (the deriving handler does not support the
nested occurrence in `List`). -/
def Py.decEq : (a b : Py) → Decidable (a = b)
  | .none, .none => isTrue rfl
  | .bool a, .bool b =>
    if h : a = b then isTrue (by rw [h]) else isFalse (fun hc => by cases hc; exact h rfl)
  | .int a, .int b =>
    if h : a = b then isTrue (by rw [h]) else isFalse (fun hc => by cases hc; exact h rfl)
  | .str a, .str b =>
    if h : a = b then isTrue (by rw [h]) else isFalse (fun hc => by cases hc; exact h rfl)
  | .list a, .list b =>
    match Py.decEqList a b with
    | isTrue h => isTrue (by rw [h])
    | isFalse h => isFalse (fun hc => by cases hc; exact h rfl)
  | .dict a, .dict b =>
    match Py.decEqDict a b with
    | isTrue h => isTrue (by rw [h])
    | isFalse h => isFalse (fun hc => by cases hc; exact h rfl)
  | .none, .bool _ => isFalse (fun h => Py.noConfusion h)
  | .none, .int _ => isFalse (fun h => Py.noConfusion h)
  | .none, .str _ => isFalse (fun h => Py.noConfusion h)
  | .none, .list _ => isFalse (fun h => Py.noConfusion h)
  | .none, .dict _ => isFalse (fun h => Py.noConfusion h)
  | .bool _, .none => isFalse (fun h => Py.noConfusion h)
  | .bool _, .int _ => isFalse (fun h => Py.noConfusion h)
  | .bool _, .str _ => isFalse (fun h => Py.noConfusion h)
  | .bool _, .list _ => isFalse (fun h => Py.noConfusion h)
  | .bool _, .dict _ => isFalse (fun h => Py.noConfusion h)
  | .int _, .none => isFalse (fun h => Py.noConfusion h)
  | .int _, .bool _ => isFalse (fun h => Py.noConfusion h)
  | .int _, .str _ => isFalse (fun h => Py.noConfusion h)
  | .int _, .list _ => isFalse (fun h => Py.noConfusion h)
  | .int _, .dict _ => isFalse (fun h => Py.noConfusion h)
  | .str _, .none => isFalse (fun h => Py.noConfusion h)
  | .str _, .bool _ => isFalse (fun h => Py.noConfusion h)
  | .str _, .int _ => isFalse (fun h => Py.noConfusion h)
  | .str _, .list _ => isFalse (fun h => Py.noConfusion h)
  | .str _, .dict _ => isFalse (fun h => Py.noConfusion h)
  | .list _, .none => isFalse (fun h => Py.noConfusion h)
  | .list _, .bool _ => isFalse (fun h => Py.noConfusion h)
  | .list _, .int _ => isFalse (fun h => Py.noConfusion h)
  | .list _, .str _ => isFalse (fun h => Py.noConfusion h)
  | .list _, .dict _ => isFalse (fun h => Py.noConfusion h)
  | .dict _, .none => isFalse (fun h => Py.noConfusion h)
  | .dict _, .bool _ => isFalse (fun h => Py.noConfusion h)
  | .dict _, .int _ => isFalse (fun h => Py.noConfusion h)
  | .dict _, .str _ => isFalse (fun h => Py.noConfusion h)
  | .dict _, .list _ => isFalse (fun h => Py.noConfusion h)

/-- Decidable equality for lists of `Py` values. -/
def Py.decEqList : (a b : List Py) → Decidable (a = b)
  | [], [] => isTrue rfl
  | [], _ :: _ => isFalse (fun h => List.noConfusion h)
  | _ :: _, [] => isFalse (fun h => List.noConfusion h)
  | x :: xs, y :: ys =>
    match Py.decEq x y, Py.decEqList xs ys with
    | isTrue h1, isTrue h2 => isTrue (by rw [h1, h2])
    | isFalse h1, _ => isFalse (fun hc => by cases hc; exact h1 rfl)
    | _, isFalse h2 => isFalse (fun hc => by cases hc; exact h2 rfl)

/-- Decidable equality for string-keyed association lists of `Py` values. -/
def Py.decEqDict : (a b : List (String × Py)) → Decidable (a = b)
  | [], [] => isTrue rfl
  | [], _ :: _ => isFalse (fun h => List.noConfusion h)
  | _ :: _, [] => isFalse (fun h => List.noConfusion h)
  | (k1, v1) :: xs, (k2, v2) :: ys =>
    if hk : k1 = k2 then
      match Py.decEq v1 v2, Py.decEqDict xs ys with
      | isTrue h1, isTrue h2 => isTrue (by rw [hk, h1, h2])
      | isFalse h1, _ => isFalse (fun hc => by cases hc; exact h1 rfl)
      | _, isFalse h2 => isFalse (fun hc => by cases hc; exact h2 rfl)
    else isFalse (fun hc => by cases hc; exact hk rfl)

end

instance : DecidableEq Py := Py.decEq

deriving instance DecidableEq for Except

/-- Python exceptions that the embedded code can raise. -/
inductive PyErr where
  | keyError
  | indexError
  | typeError
  | attributeError
  | valueError
  | nameError
  | runtimeError
deriving DecidableEq

/-- Python truthiness for the values above. -/
def Py.truthy : Py → Bool
  | .none => false
  | .bool b => b
  | .int n => n != 0
  | .str s => s != ""
  | .list l => !l.isEmpty
  | .dict l => !l.isEmpty

/-- Association-list lookup used for Python dict access. -/
def lookupD (l : List (String × Py)) (k : String) : Option Py :=
  (l.find? (fun p => p.1 = k)).map (fun p => p.2)

/-- Python `obj.get(key, default)`: raises AttributeError on non-dicts. -/
def Py.getD : Py → String → Py → Except PyErr Py
  | .dict l, k, d => .ok ((lookupD l k).getD d)
  | _, _, _ => .error .attributeError

/-- Python `obj[key]` for a string key. -/
def Py.subs : Py → String → Except PyErr Py
  | .dict l, k =>
    match lookupD l k with
    | some v => .ok v
    | Option.none => .error .keyError
  | _, _ => .error .typeError

/-- Python `obj[i]` for an integer index. -/
def Py.subi : Py → Nat → Except PyErr Py
  | .list l, i =>
    match l.get? i with
    | some v => .ok v
    | Option.none => .error .indexError
  | .dict _, _ => .error .keyError
  | _, _ => .error .typeError

/-- Python iteration `for x in obj`: lists yield elements, dicts yield keys,
strings yield one-character strings; other values raise TypeError. -/
def Py.iter : Py → Except PyErr (List Py)
  | .list l => .ok l
  | .dict l => .ok (l.map (fun p => Py.str p.1))
  | .str s => .ok (s.toList.map (fun c => Py.str (String.mk [c])))
  | _ => .error .typeError

/-- Python `key in obj.keys()`: raises AttributeError on non-dicts. -/
def Py.keysContains : Py → String → Except PyErr Bool
  | .dict l, k => .ok (l.any (fun p => p.1 = k))
  | _, _ => .error .attributeError

/-- Python `key in obj` for containers. -/
def Py.hasIn : Py → String → Except PyErr Bool
  | .dict l, k => .ok (l.any (fun p => p.1 = k))
  | .list l, k => .ok (l.any (fun x => x = Py.str k))
  | .str s, k => .ok (decide ((s.splitOn k).length > 1))
  | _, _ => .error .typeError

/-! ## WordEmbedder: `ALBERTWordEmbeddings` from `sensepolar/embed/albertEmbed.py` -/

/-- Helper for `pySplitSpace`: split a character list on every single space,
keeping empty fragments, as Python `str.split(" ")` does. -/
def pySplitChars : List Char → List Char → List String
  | [], acc => [String.mk acc.reverse]
  | c :: rest, acc =>
    if c = ' ' then String.mk acc.reverse :: pySplitChars rest []
    else pySplitChars rest (c :: acc)

/-- Python `sentence.split(" ")`. -/
def pySplitSpace (s : String) : List String := pySplitChars s.toList []

/-- The encoder capability consumed by the embedder: one tokenized sentence
(`encoded.word_ids()`: per subtoken position, the index of the whitespace word
it originated from, `none` for special tokens) together with the hidden states
of one forward pass (`output.hidden_states`: layers, then subtoken positions,
then vector coordinates). -/
structure Encoder where
  wordIds : List (Option Nat)
  hiddenStates : List (List (List ℚ))

/-- Model of `np.where(encoded.word_ids()[0] == idx)`.  `word_ids()` returns a
flat per-subtoken list, so `[0]` reads the word id of subtoken 0 alone and the
comparison is a scalar Bool: `np.where` of it yields the index tuple
`(array([0]),)` when it is true and `(array([]),)` otherwise.  (A tokenizer
never produces an empty encoding — subtoken 0 exists and is the `[CLS]`
special token, whose word id is `None` — so the index-0 read is total.) -/
def alignedPositions (wordIds : List (Option Nat)) (idx : Nat) : List Nat :=
  if wordIds.getD 0 Option.none = some idx then [0] else []

/-- Modelled from the spec: the subtoken positions step 3 of the WordEmbedder
algorithm calls for — every position whose word-index mapping equals the
target index.  Used only to state how far the source's scalar comparison
diverges from the specified per-position alignment. -/
def specAlignedPositions (wordIds : List (Option Nat)) (idx : Nat) : List Nat :=
  (List.range wordIds.length).filter
    (fun i => decide (wordIds.getD i Option.none = some idx))

/-- Numpy fancy indexing `output[token_ids_word]`: the rows of a layer at the
given subtoken positions. -/
def gatherRows (layer : List (List ℚ)) (pos : List Nat) : List (List ℚ) :=
  pos.filterMap (fun i => layer.get? i)

/-- Elementwise sum of two vectors. -/
def vecSum (a b : List ℚ) : List ℚ := List.zipWith (fun x y => x + y) a b

/-- Torch `tensor.mean(dim=0)` over a stack of row vectors.  Torch produces a NaN
vector for the empty stack instead of raising; that degenerate outcome is
modelled as `none`. -/
def meanVecs : List (List ℚ) → Option (List ℚ)
  | [] => Option.none
  | v :: rest =>
    some ((rest.foldl vecSum v).map (fun x => x / (((v :: rest).length : ℚ))))

/-- Python `states[-k]` (raises IndexError, modelled as `none`, when the
negative index is out of range). -/
def pyNegIdx (l : List (List (List ℚ))) (k : Nat) : Option (List (List ℚ)) :=
  if k = 0 then l.get? 0
  else if k ≤ l.length then l.get? (l.length - k) else Option.none

/-- Python slice `states[-k:]`. -/
def pyNegSlice (l : List (List (List ℚ))) (k : Nat) : List (List (List ℚ)) :=
  if k = 0 then l else l.drop (l.length - k)

/-- Method `ALBERTWordEmbeddings.get_word_embedding(sentence, word)` over an abstract
encoder.  `sentence.split(" ").index(word)` raises ValueError when the word is
not a whitespace token (the source's `idx == -1` check is unreachable);
`torch.cat` of an empty tensor list raises RuntimeError; the mean of an empty
row stack is a NaN vector, modelled as `.ok none`. -/
def get_word_embedding (enc : Encoder) (layer : Nat) (avg_layers : Bool)
    (sentence word : String) : Except PyErr (Option (List ℚ)) :=
  match (pySplitSpace sentence).findIdx? (fun t => t = word) with
  | Option.none => .error .valueError
  | some idx =>
    let token_ids_word := alignedPositions enc.wordIds idx
    let states := enc.hiddenStates
    if avg_layers then
      let embeddings_to_average := pyNegSlice states layer
      if embeddings_to_average.isEmpty then .error .runtimeError
      else
        let word_tokens_output :=
          embeddings_to_average.flatMap (fun output => gatherRows output token_ids_word)
        .ok (meanVecs word_tokens_output)
    else
      match pyNegIdx states layer with
      | Option.none => .error .indexError
      | some output => .ok (meanVecs (gatherRows output token_ids_word))

/-! ## LexicalOracle: `Dictionary` from `sensepolar/oracle/dictionaryapi.py` -/

/-- Helper for `pyFormat`: walk the template characters; inside a field the
accumulated (reversed) field name is carried along.  A field whose name is not
among the supplied keyword arguments raises KeyError, as `str.format` does. -/
def pyFormatGo (args : List (String × String)) :
    List Char → Option (List Char) → Except PyErr String
  | [], some _ => .error .valueError
  | [], Option.none => .ok ""
  | c :: rest, Option.none =>
    if c = '\x7b' then pyFormatGo args rest (some [])
    else (pyFormatGo args rest Option.none).map (fun s => String.mk [c] ++ s)
  | c :: rest, some nm =>
    if c = '\x7d' then
      match (args.find? (fun p => p.1 = String.mk nm.reverse)).map (fun p => p.2) with
      | Option.none => .error .keyError
      | some v => (pyFormatGo args rest Option.none).map (fun s => v ++ s)
    else pyFormatGo args rest (some (c :: nm))

/-- Python `template.format(**args)` for the URL templates of the source. -/
def pyFormat (template : String) (args : List (String × String)) : Except PyErr String :=
  pyFormatGo args template.toList Option.none

/-- Python `str(None)`: the string passed for a possibly absent api key. -/
def optStr : Option String → String
  | some s => s
  | Option.none => "None"

/-- The oracle object: `Dictionary.__init__` stores the identifier, the
credentials, the locale and the endpoint templates computed by `_get_urls`. -/
structure Dictionary where
  dictionary_id : String
  api_key : Option String
  source_lang : String
  urls : List (String × Py)
deriving DecidableEq

/-- Method `Dictionary._get_urls`: endpoint templates per backend identifier; an
unknown identifier raises ValueError. -/
def getUrls (dictionary_id : String) : Except PyErr (List (String × Py)) :=
  if dictionary_id = "dictionaryapi" then
    .ok [("definitions",
           .str "https://api.dictionaryapi.dev/api/v2/entries/\x7bsource_lang\x7d/\x7bword\x7d"),
         ("examples",
           .str "https://api.dictionaryapi.dev/api/v2/entries/\x7bsource_lang\x7d/\x7bword\x7d")]
  else if dictionary_id = "oxford" then
    .ok [("definitions",
           .str "https://od-api.oxforddictionaries.com/api/v2/entries/\x7bsource_lang\x7d/\x7bword_id\x7d"),
         ("examples",
           .str "https://od-api.oxforddictionaries.com/api/v2/entries/\x7bsource_lang\x7d/\x7bword_id\x7d/sentences")]
  else if dictionary_id = "wordnik" then
    .ok [("definitions",
           .str "https://api.wordnik.com/v4/word.json/\x7bword\x7d/definitions?limit=100&includeRelated=false&useCanonical=false&includeTags=false&api_key=\x7bapi_key\x7d"),
         ("examples",
           .str "https://api.wordnik.com/v4/word.json/\x7bword\x7d/definitions?limit=100&includeRelated=false&useCanonical=false&includeTags=false&api_key=\x7bapi_key\x7d")]
  else if dictionary_id = "wordnet" then
    .ok [("definitions", Py.none), ("examples", Py.none)]
  else .error .valueError

/-- Constructor `Dictionary.__init__`: store the inputs and cache `_get_urls()`. -/
def Dictionary.init (dictionary_id : String) (api_key : Option String)
    (source_lang : String) : Except PyErr Dictionary :=
  match getUrls dictionary_id with
  | .ok urls => .ok ⟨dictionary_id, api_key, source_lang, urls⟩
  | .error e => .error e

/-- Python `self.urls[key]`: dict subscript on the cached template table. -/
def urlsIdx (urls : List (String × Py)) (k : String) : Except PyErr Py :=
  match lookupD urls k with
  | some v => .ok v
  | Option.none => .error .keyError

/-- The keyword arguments passed to `.format` by every query. -/
def fmtArgs (d : Dictionary) (word : String) : List (String × String) :=
  [("word", word), ("api_key", optStr d.api_key), ("source_lang", d.source_lang)]

/-- Python `.format` applied to a cached template value (AttributeError when the
template is `None`, as for the wordnet rows). -/
def urlFormat (template : Py) (args : List (String × String)) : Except PyErr String :=
  match template with
  | .str t => pyFormat t args
  | _ => .error .attributeError

/-- One mocked HTTP world: status code, parsed JSON body and raw text of the
response `requests.get` would produce for a URL. -/
structure HttpResponse where
  status : Nat
  body : Py
  text : String

/-- Method `Dictionary._make_request(url)`: for the wordnet identifier it reads
`self.urls['synonyms']` (KeyError: `_get_urls` never stores that key); for the
remote identifiers it performs the request and returns the parsed body on
status 200 and `None` on any other status. -/
def makeRequest (d : Dictionary) (http : String → HttpResponse) (url : String) :
    Except PyErr (Option Py) :=
  if d.dictionary_id = "wordnet" then
    match urlsIdx d.urls "synonyms" with
    | .error e => .error e
    | .ok (.str base) =>
      let r := http base
      .ok (if r.status = 200 then some (.str r.text) else Option.none)
    | .ok _ => .error .typeError
  else
    let r := http url
    .ok (if r.status = 200 then some r.body else Option.none)

/-- The local lexical graph: one lemma of a concept-sense, with the names of
its antonym lemmas (`lemma.name()`, `lemma.antonyms()`). -/
structure WnLemma where
  name : String
  antonyms : List String
deriving DecidableEq

/-- One wordnet concept-sense (`synset.definition()`, `synset.examples()`,
`synset.lemmas()`). -/
structure Synset where
  definition : String
  examples : List String
  lemmas : List WnLemma
deriving DecidableEq

/-- The local backend capability: `wordnet.synsets(word)`. -/
def WordnetGraph := String → List Synset

/-- The inner loop of the `dictionaryapi` branch of `get_examples`: per
definition entry, keep the `example` string when it is present and truthy. -/
def dapiExamplesOfDefinition (dfn : Py) : Except PyErr (List Py) := do
  let example_uses ← dfn.getD "example" Py.none
  if example_uses.truthy then .ok [example_uses] else .ok []

/-- The per-meaning loop of the `dictionaryapi` branch of `get_examples`. -/
def dapiExamplesOfMeaning (meaning : Py) : Except PyErr (List Py) := do
  let definitions ← meaning.getD "definitions" (.list [])
  if definitions.truthy then do
    let ds ← definitions.iter
    let parts ← ds.mapM dapiExamplesOfDefinition
    .ok parts.flatten
  else .ok []

/-- The per-entry loop of the `dictionaryapi` branch of `get_examples`. -/
def dapiExamplesOfEntry (entry : Py) : Except PyErr (List Py) := do
  let meanings ← entry.getD "meanings" (.list [])
  let ms ← meanings.iter
  let parts ← ms.mapM dapiExamplesOfMeaning
  .ok parts.flatten

/-- The per-sentence loop of the `oxford` branch of `get_examples`. -/
def oxfordExamplesOfSentence (sentence : Py) : Except PyErr (List Py) := do
  let h ← sentence.hasIn "text"
  if h then do
    let t ← sentence.subs "text"
    .ok [t]
  else .ok []

/-- The per-lexical-entry loop of the `oxford` branch of `get_examples`. -/
def oxfordExamplesOfEntry (entry : Py) : Except PyErr (List Py) := do
  let h ← entry.hasIn "sentences"
  if h then do
    let sentences ← entry.subs "sentences"
    let sl ← sentences.iter
    let parts ← sl.mapM oxfordExamplesOfSentence
    .ok parts.flatten
  else .ok []

/-- The per-result loop of the `oxford` branch of `get_examples`. -/
def oxfordExamplesOfResult (result : Py) : Except PyErr (List Py) := do
  let h ← result.hasIn "lexicalEntries"
  if h then do
    let entries ← result.subs "lexicalEntries"
    let el ← entries.iter
    let parts ← el.mapM oxfordExamplesOfEntry
    .ok parts.flatten
  else .ok []

/-- The per-entry loop of the `wordnik` branch of `get_examples`. -/
def wordnikExamplesOfEntry (entry : Py) : Except PyErr (List Py) := do
  let h ← entry.keysContains "text"
  if h then do
    let _definition ← entry.subs "text"
    let exampleUses ← entry.subs "exampleUses"
    let el ← exampleUses.iter
    let examples ← el.foldlM (fun acc ex => do
      let hk ← ex.keysContains "text"
      if hk then do
        let t ← ex.subs "text"
        .ok (acc ++ [t])
      else .ok acc) ([] : List Py)
    .ok [Py.list examples]
  else .ok []

/-- Query `Dictionary.get_examples(word)`.  The wordnet branch returns the example
list of every concept-sense (its skip-empty filter is commented out in the
source); remote branches request and parse their backend's shape. -/
def get_examples (d : Dictionary) (wn : WordnetGraph) (http : String → HttpResponse)
    (word : String) : Except PyErr Py :=
  if d.dictionary_id = "wordnet" then
    .ok (.list ((wn word).map (fun synset => .list (synset.examples.map Py.str))))
  else do
    let template ← urlsIdx d.urls "examples"
    let url ← urlFormat template (fmtArgs d word)
    let response? ← makeRequest d http url
    match response? with
    | Option.none => .ok (.list [])
    | some response =>
      if d.dictionary_id = "oxford" then
        if response.truthy then do
          let h ← response.hasIn "results"
          if h then do
            let results ← response.subs "results"
            let rl ← results.iter
            let parts ← rl.mapM oxfordExamplesOfResult
            .ok (.list parts.flatten)
          else .ok (.list [])
        else .ok (.list [])
      else if d.dictionary_id = "dictionaryapi" then do
        let entries := match response with | .list l => l | other => [other]
        let parts ← entries.mapM dapiExamplesOfEntry
        .ok (.list parts.flatten)
      else if d.dictionary_id = "wordnik" then do
        let el ← response.iter
        let parts ← el.mapM wordnikExamplesOfEntry
        .ok (.list parts.flatten)
      else .error .valueError

/-- The inner loop of the `dictionaryapi` branch of `get_definitions`: an
entry is kept only when its `example` field is present and truthy. -/
def dapiDefinitionsOfDefinition (dfn : Py) : Except PyErr (List Py) := do
  let example_uses ← dfn.getD "example" Py.none
  if example_uses.truthy then do
    let dv ← dfn.getD "definition" Py.none
    .ok [Py.list [dv]]
  else .ok []

/-- The per-meaning loop of the `dictionaryapi` branch of `get_definitions`. -/
def dapiDefinitionsOfMeaning (meaning : Py) : Except PyErr (List Py) := do
  let definitions ← meaning.getD "definitions" (.list [])
  if definitions.truthy then do
    let ds ← definitions.iter
    let parts ← ds.mapM dapiDefinitionsOfDefinition
    .ok parts.flatten
  else .ok []

/-- The per-entry loop of the `dictionaryapi` branch of `get_definitions`. -/
def dapiDefinitionsOfEntry (entry : Py) : Except PyErr (List Py) := do
  let meanings ← entry.getD "meanings" (.list [])
  let ms ← meanings.iter
  let parts ← ms.mapM dapiDefinitionsOfMeaning
  .ok parts.flatten

/-- The `oxford` branch of `get_definitions` builds local `senses` and
`definitions` lists and never appends to `all_definitions`; only the
exceptions its traversal may raise are observable. -/
def oxfordDefinitionsTraversal (response : Py) : Except PyErr Unit := do
  let r ← response.getD "results" (.list [.dict []])
  let r0 ← r.subi 0
  let entries ← r0.getD "lexicalEntries" (.list [])
  let el ← entries.iter
  let senses ← el.foldlM (fun acc entry => do
    let e ← entry.getD "entries" (.list [.dict []])
    let e0 ← e.subi 0
    let s ← e0.getD "senses" (.list [])
    let sl ← s.iter
    .ok (acc ++ sl)) ([] : List Py)
  let _definitions ← senses.foldlM (fun acc sense => do
    let dd ← sense.getD "definitions" (.list [])
    let dl ← dd.iter
    .ok (acc ++ dl)) ([] : List Py)
  .ok ()

/-- The per-entry loop of the `wordnik` branch of `get_definitions`. -/
def wordnikDefinitionsOfEntry (entry : Py) : Except PyErr (List Py) := do
  let h ← entry.keysContains "text"
  if h then do
    let definition ← entry.subs "text"
    let exampleUses ← entry.getD "exampleUses" (.list [])
    let el ← exampleUses.iter
    let _examples ← el.foldlM (fun acc ex => do
      let t ← ex.subs "text"
      if t.truthy then .ok (acc ++ [t]) else .ok acc) ([] : List Py)
    .ok [Py.list [definition]]
  else .ok []

/-- Query `Dictionary.get_definitions(word)`.  The wordnet branch skips every
concept-sense whose example list is empty. -/
def get_definitions (d : Dictionary) (wn : WordnetGraph) (http : String → HttpResponse)
    (word : String) : Except PyErr Py :=
  if d.dictionary_id = "wordnet" then
    .ok (.list (((wn word).filter (fun synset => synset.examples.length != 0)).map
      (fun synset => .list [.str synset.definition])))
  else do
    let template ← urlsIdx d.urls "definitions"
    let url ← urlFormat template (fmtArgs d word)
    let response? ← makeRequest d http url
    match response? with
    | Option.none => .ok (.list [])
    | some response =>
      if d.dictionary_id = "dictionaryapi" then do
        let entries := match response with | .list l => l | other => [other]
        let parts ← entries.mapM dapiDefinitionsOfEntry
        .ok (.list parts.flatten)
      else if d.dictionary_id = "oxford" then do
        let _ ← oxfordDefinitionsTraversal response
        .ok (.list [])
      else if d.dictionary_id = "wordnik" then do
        let el ← response.iter
        let parts ← el.mapM wordnikDefinitionsOfEntry
        .ok (.list parts.flatten)
      else .ok (.list [])

/-- Python `name.replace('_', ' ')` (single-character pattern and
replacement). -/
def pyReplaceUnderscore (s : String) : String :=
  String.mk (s.toList.map (fun c => if c = '_' then ' ' else c))

/-- Query `Dictionary.get_synonyms(word)`.  The wordnet branch normalizes lemma
names and drops the query word; every remote branch first reads
`self.urls['synonyms']`, a key `_get_urls` never stores. -/
def get_synonyms (d : Dictionary) (wn : WordnetGraph) (http : String → HttpResponse)
    (word : String) : Except PyErr Py :=
  if d.dictionary_id = "wordnet" then
    .ok (.list (((wn word).flatMap (fun synset =>
      synset.lemmas.filterMap (fun lem =>
        let synonym := pyReplaceUnderscore lem.name
        if synonym = word then Option.none else some synonym))).map Py.str))
  else do
    let template ← urlsIdx d.urls "synonyms"
    let url ← urlFormat template (fmtArgs d word)
    let response? ← makeRequest d http url
    let response := response?.getD Py.none
    if response.truthy then
      if d.dictionary_id = "dictionaryapi" then do
        let r0 ← response.subi 0
        let meta ← r0.getD "meta" (.dict [])
        let syns ← meta.getD "syns" (.list [])
        syns.subi 0
      else if d.dictionary_id = "oxford" then do
        let results ← response.getD "results" (.list [])
        let r0 ← results.subi 0
        let le ← r0.getD "lexicalEntries" (.list [])
        let le0 ← le.subi 0
        let en ← le0.getD "entries" (.list [])
        let en0 ← en.subi 0
        let se ← en0.getD "senses" (.list [])
        let se0 ← se.subi 0
        let synonyms ← se0.getD "synonyms" (.list [])
        let sl ← synonyms.iter
        let texts ← sl.mapM (fun synonym => synonym.getD "text" Py.none)
        .ok (.list texts)
      else if d.dictionary_id = "wordnik" then do
        let r0 ← response.subi 0
        r0.getD "words" (.list [])
      else .error .nameError
    else .ok Py.none

/-- The tail of `get_antonyms` after the wordnet branch: the request line is
commented out in the source, `response` is the literal `None`, so the
response-parsing block is dead and the tail returns `None`. -/
def antonymsAfterWordnet : Except PyErr Py := .ok Py.none

/-- Query `Dictionary.get_antonyms(word)`.  Only the wordnet branch can produce
antonyms; when it collects none, or for every other identifier, control
reaches the stub tail, which performs no request and returns `None`. -/
def get_antonyms (d : Dictionary) (wn : WordnetGraph)
    (_http : String → HttpResponse) (word : String) : Except PyErr Py :=
  if d.dictionary_id = "wordnet" then
    let antonyms := ((wn word).flatMap (fun synset => synset.lemmas)).flatMap
      (fun lem => lem.antonyms)
    if !antonyms.isEmpty then .ok (.list (antonyms.map Py.str))
    else antonymsAfterWordnet
  else antonymsAfterWordnet

/-! ## Fixtures for concrete witnesses -/

/-- A mocked HTTP world whose every response has a non-success status. -/
def http404 : String → HttpResponse := fun _ => ⟨404, Py.none, ""⟩

/-- A mocked HTTP world answering every URL with status 200 and `body`. -/
def http200 (body : Py) : String → HttpResponse := fun _ => ⟨200, body, ""⟩

/-- The empty local lexical graph. -/
def wnEmpty : WordnetGraph := fun _ => []

/-- An encoded sentence where the second whitespace word is aligned to zero
subtoken positions (the tokenizer dropped it). -/
def encNan : Encoder := ⟨[Option.none, some 0, Option.none], [[[1], [2], [4]]]⟩

/-- An encoder with the real tokenizer shape: subtoken 0 is the `[CLS]`
special token (word id `None`), and the whitespace word at index 1 spans the
two subtoken positions 2 and 3, over a two-layer hidden-state stack. -/
def encReal : Encoder :=
  ⟨[Option.none, some 0, some 1, some 1, Option.none],
   [[[1], [2], [3], [4], [5]], [[6], [7], [8], [9], [10]]]⟩

/-! ## Fixtures for the oracle claims -/

/-- The oracle constructed with the remote-basic identifier (the value
`Dictionary.init "dictionaryapi" none "en_US"` returns). -/
def dapiDict : Dictionary :=
  ⟨"dictionaryapi", Option.none, "en_US",
    [("definitions",
       .str "https://api.dictionaryapi.dev/api/v2/entries/\x7bsource_lang\x7d/\x7bword\x7d"),
     ("examples",
       .str "https://api.dictionaryapi.dev/api/v2/entries/\x7bsource_lang\x7d/\x7bword\x7d")]⟩

/-- The oracle constructed with the remote-licensed identifier. -/
def oxfordDict : Dictionary :=
  ⟨"oxford", some "key0", "en_US",
    [("definitions",
       .str "https://od-api.oxforddictionaries.com/api/v2/entries/\x7bsource_lang\x7d/\x7bword_id\x7d"),
     ("examples",
       .str "https://od-api.oxforddictionaries.com/api/v2/entries/\x7bsource_lang\x7d/\x7bword_id\x7d/sentences")]⟩

/-- The oracle constructed with the remote-keyed identifier. -/
def wordnikDict : Dictionary :=
  ⟨"wordnik", some "key0", "en_US",
    [("definitions",
       .str "https://api.wordnik.com/v4/word.json/\x7bword\x7d/definitions?limit=100&includeRelated=false&useCanonical=false&includeTags=false&api_key=\x7bapi_key\x7d"),
     ("examples",
       .str "https://api.wordnik.com/v4/word.json/\x7bword\x7d/definitions?limit=100&includeRelated=false&useCanonical=false&includeTags=false&api_key=\x7bapi_key\x7d")]⟩

/-- The oracle constructed with the local-graph identifier. -/
def wordnetDict : Dictionary :=
  ⟨"wordnet", Option.none, "en_US", [("definitions", Py.none), ("examples", Py.none)]⟩

/-- The mocked remote-basic response body of testable property 5. -/
def dogBody : Py :=
  .dict [("meanings", .list [.dict [("definitions",
    .list [.dict [("definition", .str "a domestic animal"),
                  ("example", .str "the dog barked")]])]])]

/-- A remote-basic response with two definition objects, the second of which
carries no example field. -/
def dapiBody2 : Py :=
  .dict [("meanings", .list [.dict [("definitions",
    .list [.dict [("definition", .str "d1"), ("example", .str "e1")],
           .dict [("definition", .str "d2")]])]])]

/-- A small lexical graph: "dog" has two concept-senses, the second without
examples; one lemma name contains an underscore; one lemma has an antonym. -/
def wnDog : WordnetGraph := fun w =>
  if w = "dog" then
    [⟨"a domestic animal", ["the dog barked"], [⟨"dog", []⟩, ⟨"domestic_dog", []⟩]⟩,
     ⟨"follow persistently", [], [⟨"dog", ["cat"]⟩]⟩]
  else []

/-! ## Helper lemmas -/

theorem flatMap_nil_fun {α β : Type} (l : List α) :
    l.flatMap (fun _ => ([] : List β)) = [] := by
  induction l with
  | nil => rfl
  | cons a t ih => simp [List.flatMap_cons, ih]

/-! ## Claim theorems: WordEmbedder -/

/-- C1, counterexample: the claim says a word whose index maps to zero
subtoken positions makes `get_word_embedding` fail with an alignment error.
In the code the empty gather produces the mean of an empty row stack, which
torch answers with a NaN vector rather than an exception: the call returns
normally (`.ok` with the degenerate mean), so no error propagates. -/
theorem C1_zero_alignment_counterexample :
    get_word_embedding encNan 1 false "a b" "b" = .ok Option.none := by decide

/-- C1, amended: `get_word_embedding` fails (with ValueError from
`list.index`, which propagates uncaught) exactly when the word is not a
whitespace-delimited token of the sentence; when the word is present but its
index is aligned to zero subtoken positions, the call does not fail — it
returns the degenerate NaN mean of an empty row stack. -/
theorem C1_alignment_error_amended (enc : Encoder) (k : Nat) (avg : Bool) (s w : String) :
    ((pySplitSpace s).findIdx? (fun t => t = w) = Option.none →
        get_word_embedding enc k avg s w = .error .valueError)
    ∧ (∀ idx, (pySplitSpace s).findIdx? (fun t => t = w) = some idx →
        alignedPositions enc.wordIds idx = [] →
        1 ≤ k → k ≤ enc.hiddenStates.length →
        get_word_embedding enc k avg s w = .ok Option.none) := by
  constructor
  · intro h
    unfold get_word_embedding
    rw [h]
  · intro idx hidx hempty hk hkL
    cases avg with
    | false =>
      have hneg : ∃ lay, pyNegIdx enc.hiddenStates k = some lay := by
        unfold pyNegIdx
        rw [if_neg (by omega), if_pos hkL]
        cases hg : enc.hiddenStates.get? (enc.hiddenStates.length - k) with
        | none =>
          rw [List.get?_eq_none] at hg
          omega
        | some l => exact ⟨l, rfl⟩
      obtain ⟨lay, hlay⟩ := hneg
      simp only [get_word_embedding, hidx, hempty]
      rw [if_neg Bool.false_ne_true, hlay]
      rfl
    | true =>
      have hdroplen : (pyNegSlice enc.hiddenStates k).length = k := by
        unfold pyNegSlice
        rw [if_neg (by omega), List.length_drop]
        omega
      have hne : (pyNegSlice enc.hiddenStates k).isEmpty = false := by
        cases hc : pyNegSlice enc.hiddenStates k with
        | nil => rw [hc] at hdroplen; simp at hdroplen; omega
        | cons a t => rfl
      simp only [get_word_embedding, hidx, hempty]
      rw [if_pos trivial, hne, if_neg Bool.false_ne_true]
      have hg : (pyNegSlice enc.hiddenStates k).flatMap (fun output => gatherRows output []) = [] := by
        have he : (fun output => gatherRows output []) = (fun _ : List (List ℚ) => ([] : List (List ℚ))) := by
          funext o; rfl
        rw [he, flatMap_nil_fun]
      rw [hg]
      rfl

/-- C1 witness: the amended theorem applied at concrete inputs — a missing
word raises ValueError, and a present word aligned to zero subtoken positions
yields the degenerate NaN mean instead of an error. -/
theorem C1_alignment_error_amended_witness :
    get_word_embedding encNan 1 false "a b" "c" = .error .valueError
    ∧ get_word_embedding encNan 1 true "a b" "b" = .ok Option.none :=
  ⟨(C1_alignment_error_amended encNan 1 false "a b" "c").1 (by decide),
   (C1_alignment_error_amended encNan 1 true "a b" "b").2 1 (by decide) (by decide)
     (by decide) (by decide)⟩

/-- C4 (evaluation at the failing input): the claim expects, for
`average_layers = false` and layer 1, the mean of last-layer vectors at the
subtoken positions aligned to the word — here positions 2 and 3.  Line 79
compares only `word_ids()[0]`, the word id of the `[CLS]` subtoken (`None`),
against the word index, so the source gathers no position at all and the call
returns the NaN vector of the empty mean instead of the claimed mean. -/
theorem C4_single_layer_code_bug :
    specAlignedPositions encReal.wordIds 1 = [2, 3]
    ∧ alignedPositions encReal.wordIds 1 = []
    ∧ get_word_embedding encReal 1 false "the dog" "dog" = .ok Option.none := by
  refine ⟨?_, ?_, ?_⟩ <;> decide

/-- C3 (evaluation at the failing input): the claim expects, for
`average_layers = true` and layer selector k, one flat pool over the last k
layers at every aligned subtoken position — here positions 2 and 3.  Because
line 79 compares only the `[CLS]` subtoken's word id against the word index,
the gathered position set is empty for every k and the call returns the NaN
vector of the empty mean: no pooling over layers or positions ever happens. -/
theorem C3_layer_average_code_bug :
    specAlignedPositions encReal.wordIds 1 = [2, 3]
    ∧ alignedPositions encReal.wordIds 1 = []
    ∧ get_word_embedding encReal 1 true "the dog" "dog" = .ok Option.none
    ∧ get_word_embedding encReal 2 true "the dog" "dog" = .ok Option.none := by
  refine ⟨?_, ?_, ?_, ?_⟩ <;> decide

/-! ## Inversion helpers for the `Except` do-chains -/

theorem exceptBind_ok {α β : Type} (a : α) (f : α → Except PyErr β) :
    ((Except.ok a : Except PyErr α) >>= f) = f a := rfl

theorem exceptBind_error {α β : Type} (e : PyErr) (f : α → Except PyErr β) :
    ((Except.error e : Except PyErr α) >>= f) = .error e := rfl

/-- Inverting a successful `mapM` over `Except`: every member of the
flattened output comes from a successful application of `f` to a member of
the input list. -/
theorem mapM_ok_flatten_mem {f : Py → Except PyErr (List Py)} :
    ∀ {l : List Py} {parts : List (List Py)}, l.mapM f = .ok parts →
      ∀ x ∈ parts.flatten, ∃ e ∈ l, ∃ p, f e = .ok p ∧ x ∈ p := by
  intro l
  induction l with
  | nil =>
    intro parts h x hx
    rw [List.mapM_nil] at h
    have h2 : (Except.ok ([] : List (List Py)) : Except PyErr (List (List Py)))
        = .ok parts := h
    injection h2 with h3
    subst h3
    simp at hx
  | cons a t ih =>
    intro parts h x hx
    rw [List.mapM_cons] at h
    cases hfa : f a with
    | error e => simp only [hfa, exceptBind_error] at h; simp at h
    | ok b =>
      cases hft : List.mapM f t with
      | error e => simp only [hfa, hft, exceptBind_ok, exceptBind_error] at h; simp at h
      | ok bs =>
        simp only [hfa, hft, exceptBind_ok] at h
        have h2 : (Except.ok (b :: bs) : Except PyErr (List (List Py))) = .ok parts := h
        injection h2 with h3
        subst h3
        rw [List.flatten_cons] at hx
        rcases List.mem_append.mp hx with hxa | hxb
        · exact ⟨a, List.mem_cons_self a t, b, hfa, hxa⟩
        · obtain ⟨e2, he2, p, hp, hxp⟩ := ih hft x hxb
          exact ⟨e2, List.mem_cons_of_mem _ he2, p, hp, hxp⟩

/-- Inverting the innermost remote-basic definitions loop: a produced entry
always records a definition object with a present, truthy `example` field. -/
theorem dapiDefinitionsOfDefinition_mem {dfn x : Py} {pd : List Py}
    (h : dapiDefinitionsOfDefinition dfn = .ok pd) (hx : x ∈ pd) :
    ∃ ex dv, dfn.getD "example" Py.none = .ok ex ∧ ex.truthy = true
      ∧ dfn.getD "definition" Py.none = .ok dv ∧ x = .list [dv] := by
  unfold dapiDefinitionsOfDefinition at h
  cases hex : dfn.getD "example" Py.none with
  | error e => simp only [hex, exceptBind_error] at h; simp at h
  | ok ex =>
    simp only [hex, exceptBind_ok] at h
    by_cases ht : ex.truthy = true
    · rw [if_pos ht] at h
      cases hdv : dfn.getD "definition" Py.none with
      | error e => simp only [hdv, exceptBind_error] at h; simp at h
      | ok dv =>
        simp only [hdv, exceptBind_ok] at h
        have h2 : (Except.ok [Py.list [dv]] : Except PyErr (List Py)) = .ok pd := h
        injection h2 with h3
        subst h3
        rw [List.mem_singleton] at hx
        exact ⟨ex, dv, rfl, ht, rfl, hx⟩
    · rw [if_neg ht] at h
      have h2 : (Except.ok ([] : List Py) : Except PyErr (List Py)) = .ok pd := h
      injection h2 with h3
      subst h3
      simp at hx

/-- Inverting the per-meaning remote-basic definitions loop. -/
theorem dapiDefinitionsOfMeaning_mem {meaning x : Py} {p : List Py}
    (h : dapiDefinitionsOfMeaning meaning = .ok p) (hx : x ∈ p) :
    ∃ (definitions : Py) (ds : List Py) (dfn : Py) (pd : List Py),
      meaning.getD "definitions" (.list []) = .ok definitions
      ∧ definitions.truthy = true
      ∧ definitions.iter = .ok ds
      ∧ dfn ∈ ds
      ∧ dapiDefinitionsOfDefinition dfn = .ok pd
      ∧ x ∈ pd := by
  unfold dapiDefinitionsOfMeaning at h
  cases hdf : meaning.getD "definitions" (.list []) with
  | error e => simp only [hdf, exceptBind_error] at h; simp at h
  | ok definitions =>
    simp only [hdf, exceptBind_ok] at h
    by_cases ht : definitions.truthy = true
    · rw [if_pos ht] at h
      cases hit : definitions.iter with
      | error e => simp only [hit, exceptBind_error] at h; simp at h
      | ok ds =>
        simp only [hit, exceptBind_ok] at h
        cases hmm : ds.mapM dapiDefinitionsOfDefinition with
        | error e => simp only [hmm, exceptBind_error] at h; simp at h
        | ok parts =>
          simp only [hmm, exceptBind_ok] at h
          have h2 : (Except.ok parts.flatten : Except PyErr (List Py)) = .ok p := h
          injection h2 with h3
          subst h3
          obtain ⟨dfn, hdmem, pd, hpd, hxp⟩ := mapM_ok_flatten_mem hmm x hx
          exact ⟨definitions, ds, dfn, pd, rfl, ht, hit, hdmem, hpd, hxp⟩
    · rw [if_neg ht] at h
      have h2 : (Except.ok ([] : List Py) : Except PyErr (List Py)) = .ok p := h
      injection h2 with h3
      subst h3
      simp at hx

/-- Inverting the per-entry remote-basic definitions loop. -/
theorem dapiDefinitionsOfEntry_mem {entry x : Py} {p : List Py}
    (h : dapiDefinitionsOfEntry entry = .ok p) (hx : x ∈ p) :
    ∃ (meanings : Py) (ms : List Py) (meaning : Py) (p2 : List Py),
      entry.getD "meanings" (.list []) = .ok meanings
      ∧ meanings.iter = .ok ms
      ∧ meaning ∈ ms
      ∧ dapiDefinitionsOfMeaning meaning = .ok p2
      ∧ x ∈ p2 := by
  unfold dapiDefinitionsOfEntry at h
  cases hme : entry.getD "meanings" (.list []) with
  | error e => simp only [hme, exceptBind_error] at h; simp at h
  | ok meanings =>
    simp only [hme, exceptBind_ok] at h
    cases hit : meanings.iter with
    | error e => simp only [hit, exceptBind_error] at h; simp at h
    | ok ms =>
      simp only [hit, exceptBind_ok] at h
      cases hmm : ms.mapM dapiDefinitionsOfMeaning with
      | error e => simp only [hmm, exceptBind_error] at h; simp at h
      | ok parts =>
        simp only [hmm, exceptBind_ok] at h
        have h2 : (Except.ok parts.flatten : Except PyErr (List Py)) = .ok p := h
        injection h2 with h3
        subst h3
        obtain ⟨meaning, hmmem, p2, hp2, hx2⟩ := mapM_ok_flatten_mem hmm x hx
        exact ⟨meanings, ms, meaning, p2, rfl, hit, hmmem, hp2, hx2⟩

/-- C10: for the remote-basic backend, every entry of a successful
`get_definitions` result is traced back through the response the HTTP world
actually returned — an entry of the response body, one of its `meanings`, one
definition object `dfn` of that meaning's truthy `definitions` list — and
that very object's `example` field is present and truthy; a definition object
without a truthy example contributes nothing to the result. -/
theorem C10_remote_basic_example_filter (d : Dictionary)
    (hd : d.dictionary_id = "dictionaryapi") (wn : WordnetGraph)
    (http : String → HttpResponse) (word : String) (L : List Py)
    (hL : get_definitions d wn http word = .ok (.list L)) :
    ∀ x ∈ L, ∃ (template : Py) (url : String) (response entry meanings : Py)
      (ms : List Py) (meaning definitions : Py) (ds : List Py) (dfn ex dv : Py),
      urlsIdx d.urls "definitions" = .ok template
      ∧ urlFormat template (fmtArgs d word) = .ok url
      ∧ makeRequest d http url = .ok (some response)
      ∧ entry ∈ (match response with | Py.list l => l | other => [other])
      ∧ entry.getD "meanings" (.list []) = .ok meanings
      ∧ meanings.iter = .ok ms
      ∧ meaning ∈ ms
      ∧ meaning.getD "definitions" (.list []) = .ok definitions
      ∧ definitions.truthy = true
      ∧ definitions.iter = .ok ds
      ∧ dfn ∈ ds
      ∧ dfn.getD "example" Py.none = .ok ex
      ∧ ex.truthy = true
      ∧ dfn.getD "definition" Py.none = .ok dv
      ∧ x = .list [dv] := by
  intro x hx
  unfold get_definitions at hL
  rw [if_neg (by rw [hd]; decide)] at hL
  cases hu : urlsIdx d.urls "definitions" with
  | error e => simp only [hu, exceptBind_error] at hL; simp at hL
  | ok template =>
    simp only [hu, exceptBind_ok] at hL
    cases hf : urlFormat template (fmtArgs d word) with
    | error e => simp only [hf, exceptBind_error] at hL; simp at hL
    | ok url =>
      simp only [hf, exceptBind_ok] at hL
      cases hr : makeRequest d http url with
      | error e => simp only [hr, exceptBind_error] at hL; simp at hL
      | ok response? =>
        simp only [hr, exceptBind_ok] at hL
        cases response? with
        | none =>
          simp at hL
          subst hL
          simp at hx
        | some response =>
          simp only [] at hL
          rw [if_pos hd] at hL
          cases hmm : (match response with
              | Py.list l => l
              | other => [other]).mapM dapiDefinitionsOfEntry with
          | error e => simp only [hmm, exceptBind_error] at hL; simp at hL
          | ok parts =>
            simp only [hmm, exceptBind_ok] at hL
            have h2 : (Except.ok (Py.list parts.flatten) : Except PyErr Py)
                = .ok (.list L) := hL
            injection h2 with h3
            injection h3 with h4
            rw [← h4] at hx
            obtain ⟨entry, hemem, p, hp, hxp⟩ := mapM_ok_flatten_mem hmm x hx
            obtain ⟨meanings, ms, meaning, p2, hgme, hitr, hmmem, hp2, hx2⟩ :=
              dapiDefinitionsOfEntry_mem hp hxp
            obtain ⟨definitions, ds, dfn, pd, hgdf, htr, hitr2, hdmem, hpd, hxpd⟩ :=
              dapiDefinitionsOfMeaning_mem hp2 hx2
            obtain ⟨ex, dv, hex, ht, hdv, hxv⟩ := dapiDefinitionsOfDefinition_mem hpd hxpd
            exact ⟨template, url, response, entry, meanings, ms, meaning, definitions,
              ds, dfn, ex, dv, rfl, hf, hr, hemem, hgme, hitr, hmmem, hgdf, htr,
              hitr2, hdmem, hex, ht, hdv, hxv⟩

/-- C10 witness: the filter theorem applied to a mocked response with two
definition objects, one of which lacks an example — only the entry with the
truthy example survives. -/
theorem C10_remote_basic_example_filter_witness :
    get_definitions dapiDict wnEmpty (http200 dapiBody2) "dog"
      = .ok (.list [.list [.str "d1"]]) := by
  have h := C10_remote_basic_example_filter dapiDict rfl wnEmpty
      (http200 dapiBody2) "dog" [.list [.str "d1"]] (by decide)
  decide

/-- C6: the remote-basic backend mocked with the single-meaning response of
the spec yields the nested singleton definition list and the flat example
list. -/
theorem C6_remote_basic_concrete_parse :
    get_definitions dapiDict wnEmpty (http200 dogBody) "dog"
      = .ok (.list [.list [.str "a domestic animal"]])
    ∧ get_examples dapiDict wnEmpty (http200 dogBody) "dog"
      = .ok (.list [.str "the dog barked"]) :=
  ⟨by decide, by decide⟩

set_option maxRecDepth 10000 in
/-- C2 (evaluation at the failing inputs): against a world whose every
response has a non-200 status, the remote-basic and remote-keyed
definitions/examples queries do return the empty list and antonyms returns
`None` without a request — but the synonyms query raises KeyError for every
remote backend (`_get_urls` stores no `synonyms` endpoint), and the
remote-licensed definitions/examples queries raise KeyError already at URL
formatting (their templates use a `word_id` field that `.format` is never
given).  The claimed "returns an empty result and never raises" fails. -/
theorem C2_non200_never_raises_code_bug :
    get_synonyms dapiDict wnEmpty http404 "dog" = .error .keyError
    ∧ get_definitions dapiDict wnEmpty http404 "dog" = .ok (.list [])
    ∧ get_examples dapiDict wnEmpty http404 "dog" = .ok (.list [])
    ∧ get_antonyms dapiDict wnEmpty http404 "dog" = .ok Py.none
    ∧ get_synonyms wordnikDict wnEmpty http404 "dog" = .error .keyError
    ∧ get_definitions wordnikDict wnEmpty http404 "dog" = .ok (.list [])
    ∧ get_examples wordnikDict wnEmpty http404 "dog" = .ok (.list [])
    ∧ get_antonyms wordnikDict wnEmpty http404 "dog" = .ok Py.none
    ∧ get_synonyms oxfordDict wnEmpty http404 "dog" = .error .keyError
    ∧ get_definitions oxfordDict wnEmpty http404 "dog" = .error .keyError
    ∧ get_examples oxfordDict wnEmpty http404 "dog" = .error .keyError
    ∧ get_antonyms oxfordDict wnEmpty http404 "dog" = .ok Py.none := by
  refine ⟨?_, ?_, ?_, ?_, ?_, ?_, ?_, ?_, ?_, ?_, ?_, ?_⟩ <;> decide

/-- C5: for the wordnet backend, `get_examples` returns the example list of
every concept-sense (empty lists included), while `get_definitions` keeps
exactly the concept-senses whose example list is non-empty — the deliberate
asymmetric filtering of the source. -/
theorem C5_wordnet_asymmetric_filter (d : Dictionary)
    (hd : d.dictionary_id = "wordnet") (wn : WordnetGraph)
    (http : String → HttpResponse) (word : String) :
    get_examples d wn http word
      = .ok (.list ((wn word).map (fun synset => .list (synset.examples.map Py.str))))
    ∧ ∃ L, get_definitions d wn http word = .ok (.list L)
      ∧ (∀ x ∈ L, ∃ synset ∈ wn word, synset.examples ≠ []
          ∧ x = Py.list [.str synset.definition])
      ∧ (∀ synset ∈ wn word, synset.examples ≠ [] →
          Py.list [.str synset.definition] ∈ L) := by
  constructor
  · unfold get_examples
    rw [if_pos hd]
  · refine ⟨((wn word).filter (fun synset => synset.examples.length != 0)).map
        (fun synset => Py.list [.str synset.definition]), ?_, ?_, ?_⟩
    · unfold get_definitions
      rw [if_pos hd]
    · intro x hx
      obtain ⟨synset, hs, rfl⟩ := List.mem_map.mp hx
      obtain ⟨hmem, hfil⟩ := List.mem_filter.mp hs
      refine ⟨synset, hmem, ?_, rfl⟩
      intro hnil
      rw [hnil] at hfil
      simp at hfil
    · intro synset hs hne
      apply List.mem_map.mpr
      refine ⟨synset, List.mem_filter.mpr ⟨hs, ?_⟩, rfl⟩
      rw [bne_iff_ne]
      rw [Ne, List.length_eq_zero]
      exact hne

/-- C5 witness: on the two-sense "dog" fixture the asymmetry theorem yields
two example entries (one of them empty) and a single definition entry. -/
theorem C5_wordnet_asymmetric_filter_witness :
    get_examples wordnetDict wnDog http404 "dog"
      = .ok (.list [.list [.str "the dog barked"], .list []])
    ∧ get_definitions wordnetDict wnDog http404 "dog"
      = .ok (.list [.list [.str "a domestic animal"]]) := by
  have h := C5_wordnet_asymmetric_filter wordnetDict rfl wnDog http404 "dog"
  exact ⟨by rw [h.1]; decide, by decide⟩

/-- C7: for every remote backend identifier, `get_antonyms` performs no
request — its result does not depend on the HTTP world — and always returns
`None`, the stub no-data value; only the wordnet branch can build a
non-empty antonym list. -/
theorem C7_remote_antonyms_stub (d : Dictionary)
    (hd : d.dictionary_id = "dictionaryapi" ∨ d.dictionary_id = "oxford"
        ∨ d.dictionary_id = "wordnik")
    (wn : WordnetGraph) (http http2 : String → HttpResponse) (word : String) :
    get_antonyms d wn http word = .ok Py.none
    ∧ get_antonyms d wn http word = get_antonyms d wn http2 word := by
  have hne : ¬ d.dictionary_id = "wordnet" := by
    rcases hd with h | h | h <;> rw [h] <;> decide
  constructor
  · unfold get_antonyms
    rw [if_neg hne]
    rfl
  · rfl

/-- C7 witness: the stub theorem applied to the remote-licensed oracle. -/
theorem C7_remote_antonyms_stub_witness :
    get_antonyms oxfordDict wnEmpty http404 "dog" = .ok Py.none :=
  (C7_remote_antonyms_stub oxfordDict (Or.inr (Or.inl rfl)) wnEmpty http404
    http404 "dog").1

/-- C8: `Dictionary.__init__` fails with ValueError (raised inside
`_get_urls`) for every identifier outside the closed backend set, before any
query is possible; a member identifier constructs successfully and the
object caches the endpoint-template table `_get_urls` computes. -/
theorem C8_constructor_backend_gate (id0 : String) (key : Option String)
    (lang : String) :
    (id0 ∉ (["dictionaryapi", "oxford", "wordnik", "wordnet"] : List String) →
        Dictionary.init id0 key lang = .error .valueError)
    ∧ (id0 ∈ (["dictionaryapi", "oxford", "wordnik", "wordnet"] : List String) →
        (getUrls id0).isOk = true
        ∧ Dictionary.init id0 key lang
            = .ok ⟨id0, key, lang, (getUrls id0).toOption.getD []⟩) := by
  constructor
  · intro h
    simp only [List.mem_cons, List.not_mem_nil, or_false, not_or] at h
    obtain ⟨h1, h2, h3, h4⟩ := h
    unfold Dictionary.init getUrls
    rw [if_neg h1, if_neg h2, if_neg h3, if_neg h4]
  · intro h
    simp only [List.mem_cons, List.not_mem_nil, or_false] at h
    rcases h with h | h | h | h <;> subst h <;> exact ⟨rfl, rfl⟩

/-- C8 witness: an unknown identifier is rejected at construction; the
remote-licensed identifier constructs and caches its templates. -/
theorem C8_constructor_backend_gate_witness :
    Dictionary.init "merriam" Option.none "en_US" = .error .valueError
    ∧ (getUrls "oxford").isOk = true
    ∧ Dictionary.init "oxford" Option.none "en_US"
        = .ok ⟨"oxford", Option.none, "en_US", (getUrls "oxford").toOption.getD []⟩ := by
  refine ⟨(C8_constructor_backend_gate "merriam" Option.none "en_US").1 (by decide),
    ((C8_constructor_backend_gate "oxford" Option.none "en_US").2 (by decide)).1,
    ((C8_constructor_backend_gate "oxford" Option.none "en_US").2 (by decide)).2⟩

/-- C9: for the wordnet backend the synonyms result never contains the query
word itself, and every returned synonym is a lemma name of one of the word's
concept-senses with its underscores replaced by spaces. -/
theorem C9_wordnet_synonyms_normalized (d : Dictionary)
    (hd : d.dictionary_id = "wordnet") (wn : WordnetGraph)
    (http : String → HttpResponse) (word : String) :
    ∃ L, get_synonyms d wn http word = .ok (.list L)
      ∧ Py.str word ∉ L
      ∧ ∀ x ∈ L, ∃ synset ∈ wn word, ∃ lem ∈ synset.lemmas,
          x = .str (pyReplaceUnderscore lem.name)
          ∧ pyReplaceUnderscore lem.name ≠ word := by
  refine ⟨((wn word).flatMap (fun synset =>
      synset.lemmas.filterMap (fun lem =>
        let synonym := pyReplaceUnderscore lem.name
        if synonym = word then Option.none else some synonym))).map Py.str,
      ?_, ?_, ?_⟩
  · unfold get_synonyms
    rw [if_pos hd]
  · intro hmem
    obtain ⟨s2, hs2, heq⟩ := List.mem_map.mp hmem
    have hs2w : s2 = word := by injection heq
    subst hs2w
    obtain ⟨synset, hsyn, hlm⟩ := List.mem_flatMap.mp hs2
    obtain ⟨lem, hlem, hfm⟩ := List.mem_filterMap.mp hlm
    dsimp only at hfm
    by_cases hc : pyReplaceUnderscore lem.name = s2
    · rw [if_pos hc] at hfm
      cases hfm
    · rw [if_neg hc] at hfm
      have h5 : pyReplaceUnderscore lem.name = s2 := by injection hfm
      exact hc h5
  · intro x hx
    obtain ⟨s2, hs2, rfl⟩ := List.mem_map.mp hx
    obtain ⟨synset, hsyn, hlm⟩ := List.mem_flatMap.mp hs2
    obtain ⟨lem, hlem, hfm⟩ := List.mem_filterMap.mp hlm
    dsimp only at hfm
    by_cases hc : pyReplaceUnderscore lem.name = word
    · rw [if_pos hc] at hfm
      cases hfm
    · rw [if_neg hc] at hfm
      have h5 : pyReplaceUnderscore lem.name = s2 := by injection hfm
      subst h5
      exact ⟨synset, hsyn, lem, hlem, rfl, hc⟩

/-- C9 witness: on the "dog" fixture — whose senses carry lemmas `dog` and
`domestic_dog` — the normalized synonyms theorem leaves exactly the
space-normalized other lemma, and the query word is gone. -/
theorem C9_wordnet_synonyms_normalized_witness :
    get_synonyms wordnetDict wnDog http404 "dog" = .ok (.list [.str "domestic dog"]) := by
  have h := C9_wordnet_synonyms_normalized wordnetDict rfl wnDog http404 "dog"
  decide
